import Mathlib

/-!
# Verification of the kapp spaced-repetition core

Shallow embedding of the SM-2 scheduling engine of the `kapp` backend and of
the HTTP-facing review/due-selection logic built on top of it.

Modelling conventions:
* Python `float` arithmetic is modelled exactly over `ℚ` (all constants of the
  algorithm, 0.1/0.08/0.02/1.3/2.5, are short decimals; the identities proved
  here are about the algebraic formulas of the source).
* Python `int` is modelled by `ℤ`.
* Dates/timestamps are modelled as integer day numbers: `date.today()` resp.
  `datetime.utcnow()` become an explicit parameter `today`/`now : ℤ`, and
  `+ timedelta(days=d)` becomes `+ d`.
* Python's builtin `round` is round-half-to-even (`pyRound`), and `int(x)` on a
  float truncates toward zero (`pyTrunc`).
* Fallible code (Python `raise`) is modelled with `Option`/sum-shaped results.
-/

namespace Kapp

/-- Python's builtin `round` on a real number: round half to even
(banker's rounding), modelled on `ℚ`. -/
def pyRound (x : ℚ) : ℤ :=
  let n : ℤ := ⌊x⌋
  let f : ℚ := x - n
  if f < 1/2 then n
  else if 1/2 < f then n + 1
  else if 2 ∣ n then n else n + 1

/-- Python's builtin `int` applied to a float/rational: truncation toward
zero. -/
def pyTrunc (x : ℚ) : ℤ :=
  if 0 ≤ x then ⌊x⌋ else -⌊-x⌋

/-- The SM-2 ease-factor adjustment `0.1 - (5 - q) * (0.08 + (5 - q) * 0.02)`
shared verbatim by `srs.calculate_sm2` and `srs_utils.apply_sm2`. -/
def easeAdjustment (quality : ℤ) : ℚ :=
  1/10 - (5 - (quality : ℚ)) * (2/25 + (5 - (quality : ℚ)) * (1/50))

/-- Result tuple of `srs.calculate_sm2`
`(new_repetitions, new_interval, new_ease_factor, next_review_date)`. -/
structure Sm2Result where
  repetitions : ℤ
  interval : ℤ
  ease_factor : ℚ
  next_review_date : ℤ
  deriving Repr, DecidableEq

/-- Embedding of `srs.calculate_sm2` (src/backend/srs.py, lines 27–91).
`today` stands for `date.today()`; a `ValueError` on out-of-range quality is
modelled as `none`. -/
def calculate_sm2 (today : ℤ) (quality repetitions : ℤ) (ease_factor : ℚ)
    (interval : ℤ) : Option Sm2Result :=
  if ¬ (0 ≤ quality ∧ quality ≤ 5) then none
  else
    let ease_factor := if ease_factor < 13/10 then 13/10 else ease_factor
    if quality < 3 then
      some ⟨0, 1, ease_factor, today + 1⟩
    else
      let new_repetitions := repetitions + 1
      let new_interval :=
        if new_repetitions = 1 then 1
        else if new_repetitions = 2 then 6
        else pyRound ((interval : ℚ) * ease_factor)
      let new_ease_factor := ease_factor + easeAdjustment quality
      let new_ease_factor := max (13/10) new_ease_factor
      some ⟨new_repetitions, new_interval, new_ease_factor, today + new_interval⟩

/-- The four SM-2 attributes that `srs_utils.apply_sm2` reads and writes on any
duck-typed item (`.repetitions`, `.review_interval`, `.ease_factor`,
`.next_review_date`). -/
structure SrsFields where
  repetitions : ℤ
  review_interval : ℤ
  ease_factor : ℚ
  next_review_date : Option ℤ
  deriving Repr, DecidableEq

/-- Embedding of `srs_utils.apply_sm2` (src/backend/srs_utils.py, lines 10–44).
`now` stands for `datetime.utcnow()`.  Note that, unlike `calculate_sm2`, this
variant performs no range validation, branches on the pre-increment repetition
count, truncates (`int(...)`) instead of rounding, and applies the ease-factor
update unconditionally — also on lapses. -/
def apply_sm2 (now : ℤ) (item : SrsFields) (quality : ℤ) : SrsFields :=
  let item :=
    if quality < 3 then
      { item with repetitions := 0, review_interval := 1,
                  next_review_date := some (now + 1) }
    else
      let grown := pyTrunc ((item.review_interval : ℚ) * item.ease_factor)
      let item :=
        if item.repetitions = 0 then { item with review_interval := 1 }
        else if item.repetitions = 1 then { item with review_interval := 6 }
        else { item with review_interval := grown }
      { item with repetitions := item.repetitions + 1,
                  next_review_date := some (now + item.review_interval) }
  { item with ease_factor := max (13/10) (item.ease_factor + easeAdjustment quality) }

/-- The `Card` model (src/backend/models.py, class Card): content/identity
fields plus the four SM-2 scheduling fields.  Strings and dates are modelled
as `String` and integer day numbers. -/
structure Card where
  id : ℤ
  deck_id : ℤ
  front_korean : String
  front_romanization : Option String
  back_english : String
  example_sentence : Option String
  level : ℤ
  interval : ℤ
  repetitions : ℤ
  ease_factor : ℚ
  next_review_date : Option ℤ
  created_at : ℤ
  deriving Repr, DecidableEq

/-- Embedding of `srs.update_card_after_review` (src/backend/srs.py,
lines 94–116): runs `calculate_sm2` on the card's scheduling fields and writes
the four results back; the `ValueError` of `calculate_sm2` propagates
(`none`). -/
def update_card_after_review (today : ℤ) (card : Card) (quality_rating : ℤ) :
    Option Card :=
  (calculate_sm2 today quality_rating card.repetitions card.ease_factor
      card.interval).map fun r =>
    { card with repetitions := r.repetitions, interval := r.interval,
                ease_factor := r.ease_factor,
                next_review_date := some r.next_review_date }

/-! ## JSON values and Python coercions at the route layer -/

/-- JSON scalar values as delivered by Flask's `request.get_json()` for the
`quality` field.  Arrays/objects are not modelled (like `null` they make
Python's `int()` raise `TypeError`). -/
inductive JVal where
  | jint (n : ℤ)
  | jbool (b : Bool)
  | jfloat (x : ℚ)
  | jstr (s : String)
  | jnull
  deriving Repr, DecidableEq

/-- Exceptions raised by Python's `int()` builtin. -/
inductive PyErr where
  | valueError
  | typeError
  deriving Repr, DecidableEq

/-- Python's `int(v)` coercion on a JSON scalar: integers pass through,
booleans become 0/1, floats truncate toward zero, integer-shaped strings
parse (others raise `ValueError`), `None` raises `TypeError`. -/
def pyInt : JVal → Except PyErr ℤ
  | .jint n => .ok n
  | .jbool b => .ok (if b then 1 else 0)
  | .jfloat x => .ok (pyTrunc x)
  | .jstr s => match s.toInt? with
    | some n => .ok n
    | none => .error .valueError
  | .jnull => .error .typeError

/-- Python's `isinstance(v, int)` on a JSON scalar (booleans are `int`
subclasses in Python). -/
def pyIsInstanceInt : JVal → Bool
  | .jint _ => true
  | .jbool _ => true
  | _ => false

/-- The integer value of a JSON scalar that passed `isinstance(v, int)`. -/
def jvalAsInt : JVal → ℤ
  | .jint n => n
  | .jbool b => if b then 1 else 0
  | _ => 0

/-! ## Review routes -/

/-- Embedding of `submit_review` (src/backend/routes/reviews.py, lines 19–95),
restricted to a request body that carries the `quality_rating` field `qv`
(`card_id` is represented by the looked-up `card`).  Result: the HTTP status
and the stored card after the request (unchanged on any rejection, since the
route returns before mutating).  The appended `Review` history row is not
modelled (no claim is about it). -/
def submit_review (today : ℤ) (qv : JVal) (card : Option Card) :
    ℕ × Option Card :=
  if ¬ (pyIsInstanceInt qv = true ∧ 0 ≤ jvalAsInt qv ∧ jvalAsInt qv ≤ 5) then
    (400, card)
  else
    match card with
    | none => (404, none)
    | some c =>
      match update_card_after_review today c (jvalAsInt qv) with
      | some c' => (201, some c')
      | none => (400, card)

/-- The `VocabularyItem` fields touched by `record_review`
(src/backend/models_v2.py, class VocabularyItem): the practice counters, the
selector's ordering keys and the SM-2 fields; the untouched content columns
(korean, english, …) are not carried. -/
structure VocabItem where
  id : ℤ
  difficulty_level : ℤ
  times_practiced : ℤ
  times_correct : ℤ
  srs : SrsFields
  deriving Repr, DecidableEq

/-- Embedding of `record_review` (src/backend/routes/vocabulary.py,
lines 370–424) for a body carrying the `quality` field `qv`: lookup, Python
`int()` coercion (a `ValueError` is caught as 400, a `TypeError` falls to the
generic 500 handler), range check, counter updates, then
`calculate_sm2_next_review` which delegates to `apply_sm2`. -/
def record_review (now : ℤ) (qv : JVal) (item : Option VocabItem) :
    ℕ × Option VocabItem :=
  match item with
  | none => (404, none)
  | some it =>
    match pyInt qv with
    | .error .valueError => (400, some it)
    | .error .typeError => (500, some it)
    | .ok q =>
      if q < 0 ∨ 5 < q then (400, some it)
      else
        (200, some { it with
          times_practiced := it.times_practiced + 1,
          times_correct := it.times_correct + (if 3 ≤ q then 1 else 0),
          srs := apply_sm2 now it.srs q })

/-- The `ExerciseSRS` record (src/backend/models_v2.py, class ExerciseSRS):
practice counters plus the SM-2 fields.  The single-user `user_id` column is
not carried (all requests use the one configured user). -/
structure ExerciseSrs where
  times_practiced : ℤ
  times_correct : ℤ
  last_reviewed_at : Option ℤ
  srs : SrsFields
  deriving Repr, DecidableEq

/-- The column defaults a fresh `ExerciseSRS` row is created with in
`record_exercise_review` (src/backend/routes/exercise_review.py,
lines 171–181): `times_practiced=0, times_correct=0, review_interval=1,
ease_factor=2.5, repetitions=0`, `next_review_date`/`last_reviewed_at` null. -/
def defaultExerciseSrs : ExerciseSrs :=
  ⟨0, 0, none, ⟨0, 1, 5/2, none⟩⟩

/-- Embedding of `record_exercise_review` (src/backend/routes/
exercise_review.py, lines 125–207) for a body carrying the `quality` field:
feature flag, exercise lookup, Python `int()` coercion, range check,
get-or-create of the SRS row, counter updates, `apply_sm2`. -/
def record_exercise_review (now : ℤ) (enabled : Bool)
    (exerciseFound : Bool) (srsRow : Option ExerciseSrs) (qv : JVal) :
    ℕ × Option ExerciseSrs :=
  if enabled = false then (400, srsRow)
  else if exerciseFound = false then (404, srsRow)
  else
    match pyInt qv with
    | .error .valueError => (400, srsRow)
    | .error .typeError => (500, srsRow)
    | .ok q =>
      if q < 0 ∨ 5 < q then (400, srsRow)
      else
        let s := srsRow.getD defaultExerciseSrs
        (200, some { s with
          times_practiced := s.times_practiced + 1,
          times_correct := s.times_correct + (if 3 ≤ q then 1 else 0),
          last_reviewed_at := some now,
          srs := apply_sm2 now s.srs q })

/-! ## Due-item selectors -/

/-- The `limit` query argument as seen through Flask's
`request.args.get("limit", 20, type=int)`: absent, an integer-shaped string
carrying `n`, or a string the `int` conversion rejects (Flask then silently
substitutes the default). -/
inductive LimitArg where
  | absent
  | malformed
  | value (n : ℤ)
  deriving Repr, DecidableEq

/-- Flask `request.args.get("limit", 20, type=int)`: the parsed integer, or the
default 20 when the parameter is absent or fails `int` conversion. -/
def flaskLimitArg : LimitArg → ℤ
  | .absent => 20
  | .malformed => 20
  | .value n => n

/-- The effective limit both due selectors compute:
`min(request.args.get("limit", 20, type=int), 50)`
(src/backend/routes/vocabulary.py line 318,
src/backend/routes/exercise_review.py line 42). -/
def effectiveLimit (arg : LimitArg) : ℤ :=
  min (flaskLimitArg arg) 50

/-- Stable insertion of one element into a list sorted by `le`. -/
def insertSorted (le : α → α → Bool) (a : α) : List α → List α
  | [] => [a]
  | b :: bs => if le a b then a :: b :: bs else b :: insertSorted le a bs

/-- Stable insertion sort, modelling the deterministic order the SQL
`ORDER BY` produces. -/
def sortBy (le : α → α → Bool) : List α → List α
  | [] => []
  | a :: as => insertSorted le a (sortBy le as)

/-- SQL `LIMIT n` under SQLite semantics: a negative limit imposes no bound. -/
def sqlLimit (n : ℤ) (l : List α) : List α :=
  if 0 ≤ n then l.take n.toNat else l

/-- The SQL ordering `ORDER BY next_review_date ASC NULLS FIRST,
difficulty_level ASC` on vocabulary items. -/
def vocabOrder (a b : VocabItem) : Bool :=
  match a.srs.next_review_date, b.srs.next_review_date with
  | none, none => a.difficulty_level ≤ b.difficulty_level
  | none, some _ => true
  | some _, none => false
  | some x, some y => x < y ∨ (x = y ∧ a.difficulty_level ≤ b.difficulty_level)

/-- The due filter of both selectors:
`next_review_date IS NULL OR next_review_date <= now`. -/
def isDueAt (asOf : ℤ) (next : Option ℤ) : Bool :=
  match next with
  | none => true
  | some d => d ≤ asOf

/-- The new-item test of both selectors: `next_review_date IS NULL`. -/
def isNewItem (next : Option ℤ) : Bool :=
  next.isNone

/-- Embedding of `get_due_vocabulary` (src/backend/routes/vocabulary.py,
lines 293–362): filter to due items, order, apply the effective limit, and
count the never-reviewed items among the returned page.  Returns
(`vocabulary`, `new_items`); `total_due` is the length of the first
component. -/
def get_due_vocabulary (asOf : ℤ) (pool : List VocabItem) (arg : LimitArg) :
    List VocabItem × ℕ :=
  let due := pool.filter fun it => isDueAt asOf it.srs.next_review_date
  let page := sqlLimit (effectiveLimit arg) (sortBy vocabOrder due)
  (page, (page.filter fun it => isNewItem it.srs.next_review_date).length)

/-- A row of the `exercise_srs` query in `get_due_exercises`, together with
whether its `exercise` relationship still resolves (rows with a dangling
exercise are skipped when building the response). -/
structure ExerciseDueRow where
  exercise_id : ℤ
  next_review_date : Option ℤ
  hasExercise : Bool
  deriving Repr, DecidableEq

/-- The SQL ordering `ORDER BY next_review_date ASC NULLS FIRST` on exercise
SRS rows. -/
def exerciseOrder (a b : ExerciseDueRow) : Bool :=
  match a.next_review_date, b.next_review_date with
  | none, _ => true
  | some _, none => false
  | some x, some y => x ≤ y

/-- Embedding of `get_due_exercises` (src/backend/routes/exercise_review.py,
lines 24–121): when the feature flag is off the response is empty; otherwise
filter to due rows, order, apply the effective limit, count the new items on
that page, and drop rows whose exercise no longer exists.  Returns
(`exercises`, `total_due`, `new_items`); in the source `total_due` is
`len(exercises)`. -/
def get_due_exercises (enabled : Bool) (asOf : ℤ) (pool : List ExerciseDueRow)
    (arg : LimitArg) : List ExerciseDueRow × ℕ × ℕ :=
  if enabled = false then ([], 0, 0)
  else
    let due := pool.filter fun r => isDueAt asOf r.next_review_date
    let page := sqlLimit (effectiveLimit arg) (sortBy exerciseOrder due)
    let newCount := (page.filter fun r => isNewItem r.next_review_date).length
    let exercises := page.filter fun r => r.hasExercise
    (exercises, exercises.length, newCount)

/-! ## Iterated reviews (streaks) -/

/-- The scheduling state `(repetitions, interval, ease_factor)` threaded
through consecutive `calculate_sm2` calls (as `update_card_after_review`
does via the card). -/
structure CalcState where
  repetitions : ℤ
  interval : ℤ
  ease_factor : ℚ
  deriving Repr, DecidableEq

/-- One `calculate_sm2` call, keeping only the state that feeds the next
call. -/
def calcStep (today : ℤ) (s : CalcState) (quality : ℤ) : Option CalcState :=
  (calculate_sm2 today quality s.repetitions s.ease_factor s.interval).map
    fun r => ⟨r.repetitions, r.interval, r.ease_factor⟩

/-- A sequence of consecutive `calculate_sm2` reviews with the given quality
ratings. -/
def runCalc (today : ℤ) (s : CalcState) : List ℤ → Option CalcState
  | [] => some s
  | q :: qs =>
    match calcStep today s q with
    | none => none
    | some s' => runCalc today s' qs

/-- A sequence of consecutive `apply_sm2` reviews with the given quality
ratings. -/
def runApply (now : ℤ) (s : SrsFields) : List ℤ → SrsFields
  | [] => s
  | q :: qs => runApply now (apply_sm2 now s q) qs

/-! ## Concrete instances used by witnesses and counterexamples -/

/-- Concrete card used to witness the frame condition. -/
def cardW : Card := ⟨7, 2, "ka", none, "en", none, 0, 0, 0, 5/2, none, 0⟩

/-- The state of `cardW` after a quality-4 review on day 0. -/
def cardW2 : Card :=
  { cardW with repetitions := 1, interval := 1, ease_factor := 5/2,
               next_review_date := some 1 }

/-- Concrete vocabulary item used for the C4 counterexample: never reviewed,
scheduling state at the column defaults. -/
def v0 : VocabItem := ⟨1, 1, 0, 0, ⟨0, 1, 5/2, none⟩⟩

/-- Two never-reviewed vocabulary items (integer ease factors keep the terms
kernel-evaluable). -/
def vA : VocabItem := ⟨1, 1, 0, 0, ⟨0, 1, 2, none⟩⟩

/-- Second never-reviewed vocabulary item, distinct id. -/
def vB : VocabItem := ⟨2, 1, 0, 0, ⟨0, 1, 2, none⟩⟩

/-- A vocabulary item whose next review lies in the future of instant 0. -/
def vFuture : VocabItem := ⟨3, 1, 0, 0, ⟨1, 1, 2, some 10⟩⟩

/-- Pool with two due (new) items, for the limit counterexample of C7. -/
def poolC7 : List VocabItem := [vA, vB]

/-- Pool with one due and one future item, for the C7 witness. -/
def poolC7W : List VocabItem := [vA, vFuture]

/-- A pool of 21 never-reviewed vocabulary items (more than the default limit
of 20), for the C8 counterexample. -/
def pool21 : List VocabItem :=
  (List.range 21).map fun i => ⟨(i : ℤ), 1, 0, 0, ⟨0, 1, 2, none⟩⟩

/-! ## Basic lemmas on the rounding helpers -/

lemma floor_le_pyRound (x : ℚ) : ⌊x⌋ ≤ pyRound x := by
  unfold pyRound
  simp only []
  split_ifs <;> omega

lemma le_pyRound_of_le {z : ℤ} {x : ℚ} (h : (z : ℚ) ≤ x) : z ≤ pyRound x :=
  le_trans (Int.le_floor.mpr h) (floor_le_pyRound x)

lemma pyTrunc_of_nonneg {x : ℚ} (h : 0 ≤ x) : pyTrunc x = ⌊x⌋ := if_pos h

lemma le_pyTrunc_of_le {z : ℤ} {x : ℚ} (h0 : 0 ≤ x) (h : (z : ℚ) ≤ x) :
    z ≤ pyTrunc x := by
  rw [pyTrunc_of_nonneg h0]
  exact Int.le_floor.mpr h

/-! ## Branch lemmas for `calculate_sm2` -/

lemma calculate_sm2_lapse {today quality repetitions : ℤ} {ease_factor : ℚ}
    {interval : ℤ} (h0 : 0 ≤ quality) (h3 : quality < 3) :
    calculate_sm2 today quality repetitions ease_factor interval =
      some ⟨0, 1, if ease_factor < 13/10 then 13/10 else ease_factor,
            today + 1⟩ := by
  unfold calculate_sm2
  rw [if_neg, if_pos h3]
  omega

lemma calculate_sm2_invalid {today quality repetitions : ℤ} {ease_factor : ℚ}
    {interval : ℤ} (h : ¬ (0 ≤ quality ∧ quality ≤ 5)) :
    calculate_sm2 today quality repetitions ease_factor interval = none := by
  unfold calculate_sm2
  rw [if_pos h]

lemma calculate_sm2_success_rep0 {today quality : ℤ} {ease_factor : ℚ}
    {interval : ℤ} (h3 : 3 ≤ quality) (h5 : quality ≤ 5) :
    calculate_sm2 today quality 0 ease_factor interval =
      some ⟨1, 1,
            max (13/10) ((if ease_factor < 13/10 then 13/10 else ease_factor) +
              easeAdjustment quality),
            today + 1⟩ := by
  unfold calculate_sm2
  rw [if_neg (by omega), if_neg (by omega)]
  norm_num

lemma calculate_sm2_success_rep1 {today quality : ℤ} {ease_factor : ℚ}
    {interval : ℤ} (h3 : 3 ≤ quality) (h5 : quality ≤ 5) :
    calculate_sm2 today quality 1 ease_factor interval =
      some ⟨2, 6,
            max (13/10) ((if ease_factor < 13/10 then 13/10 else ease_factor) +
              easeAdjustment quality),
            today + 6⟩ := by
  unfold calculate_sm2
  rw [if_neg (by omega), if_neg (by omega)]
  norm_num

lemma calculate_sm2_success_grow {today quality repetitions : ℤ}
    {ease_factor : ℚ} {interval : ℤ}
    (h3 : 3 ≤ quality) (h5 : quality ≤ 5)
    (hr0 : repetitions ≠ 0) (hr1 : repetitions ≠ 1) :
    calculate_sm2 today quality repetitions ease_factor interval =
      some ⟨repetitions + 1,
            pyRound ((interval : ℚ) *
              (if ease_factor < 13/10 then 13/10 else ease_factor)),
            max (13/10) ((if ease_factor < 13/10 then 13/10 else ease_factor) +
              easeAdjustment quality),
            today + pyRound ((interval : ℚ) *
              (if ease_factor < 13/10 then 13/10 else ease_factor))⟩ := by
  unfold calculate_sm2
  rw [if_neg (by omega), if_neg (by omega)]
  simp only [if_neg (by omega : ¬ repetitions + 1 = 1),
    if_neg (by omega : ¬ repetitions + 1 = 2)]

/-! ## Branch lemmas for `apply_sm2` -/

lemma apply_sm2_lapse {now : ℤ} {item : SrsFields} {quality : ℤ}
    (h : quality < 3) :
    apply_sm2 now item quality =
      { item with repetitions := 0, review_interval := 1,
                  next_review_date := some (now + 1),
                  ease_factor := max (13/10)
                    (item.ease_factor + easeAdjustment quality) } := by
  unfold apply_sm2
  rw [if_pos h]

lemma apply_sm2_success_rep0 {now : ℤ} {item : SrsFields} {quality : ℤ}
    (h : ¬ quality < 3) (h0 : item.repetitions = 0) :
    apply_sm2 now item quality =
      { item with repetitions := 1, review_interval := 1,
                  next_review_date := some (now + 1),
                  ease_factor := max (13/10)
                    (item.ease_factor + easeAdjustment quality) } := by
  unfold apply_sm2
  rw [if_neg h]
  simp [h0]

lemma apply_sm2_success_rep1 {now : ℤ} {item : SrsFields} {quality : ℤ}
    (h : ¬ quality < 3) (h1 : item.repetitions = 1) :
    apply_sm2 now item quality =
      { item with repetitions := 2, review_interval := 6,
                  next_review_date := some (now + 6),
                  ease_factor := max (13/10)
                    (item.ease_factor + easeAdjustment quality) } := by
  unfold apply_sm2
  rw [if_neg h]
  simp [h1]

lemma apply_sm2_success_grow {now : ℤ} {item : SrsFields} {quality : ℤ}
    (h : ¬ quality < 3) (hr0 : item.repetitions ≠ 0)
    (hr1 : item.repetitions ≠ 1) :
    apply_sm2 now item quality =
      { item with repetitions := item.repetitions + 1,
                  review_interval :=
                    pyTrunc ((item.review_interval : ℚ) * item.ease_factor),
                  next_review_date := some (now +
                    pyTrunc ((item.review_interval : ℚ) * item.ease_factor)),
                  ease_factor := max (13/10)
                    (item.ease_factor + easeAdjustment quality) } := by
  unfold apply_sm2
  rw [if_neg h]
  simp only [if_neg (by omega : ¬ item.repetitions = 0),
    if_neg (by omega : ¬ item.repetitions = 1)]

lemma floored_ease_ge {ease_factor : ℚ} :
    13/10 ≤ (if ease_factor < 13/10 then 13/10 else ease_factor) := by
  split_ifs with h
  · exact le_refl _
  · exact le_of_not_lt h

lemma mem_insertSorted {α : Type} {le : α → α → Bool} {a x : α} :
    ∀ {l : List α}, x ∈ insertSorted le a l ↔ x = a ∨ x ∈ l := by
  intro l
  induction l with
  | nil => simp [insertSorted]
  | cons b bs ih =>
    rw [insertSorted]
    split_ifs
    · simp
    · simp only [List.mem_cons, ih]
      tauto

lemma mem_sortBy {α : Type} {le : α → α → Bool} {x : α} :
    ∀ {l : List α}, x ∈ sortBy le l ↔ x ∈ l := by
  intro l
  induction l with
  | nil => simp [sortBy]
  | cons b bs ih =>
    rw [sortBy]
    rw [mem_insertSorted]
    simp only [List.mem_cons, ih]

lemma length_insertSorted {α : Type} {le : α → α → Bool} {a : α} :
    ∀ {l : List α}, (insertSorted le a l).length = l.length + 1 := by
  intro l
  induction l with
  | nil => rfl
  | cons b bs ih =>
    rw [insertSorted]
    split_ifs
    · rfl
    · simp only [List.length_cons, ih]

lemma length_sortBy {α : Type} {le : α → α → Bool} :
    ∀ {l : List α}, (sortBy le l).length = l.length := by
  intro l
  induction l with
  | nil => rfl
  | cons b bs ih =>
    rw [sortBy, length_insertSorted, ih]
    rfl

lemma sqlLimit_neg {α : Type} {n : ℤ} (l : List α) (h : n < 0) :
    sqlLimit n l = l := by
  unfold sqlLimit
  rw [if_neg (by omega)]

lemma mem_sqlLimit {α : Type} {n : ℤ} {l : List α} {x : α}
    (h : x ∈ sqlLimit n l) : x ∈ l := by
  unfold sqlLimit at h
  split_ifs at h
  · exact List.take_subset _ _ h
  · exact h

lemma length_sqlLimit_le {α : Type} {n : ℤ} (l : List α) (h : 0 ≤ n) :
    ((sqlLimit n l).length : ℤ) ≤ n := by
  unfold sqlLimit
  rw [if_pos h]
  calc ((l.take n.toNat).length : ℤ)
      ≤ (n.toNat : ℤ) := by
        have hl : (l.take n.toNat).length ≤ n.toNat :=
          le_trans (le_of_eq (List.length_take _ _)) (min_le_left _ _)
        exact_mod_cast hl
    _ = n := Int.toNat_of_nonneg h

lemma sqlLimit_of_length_le {α : Type} {n : ℤ} {l : List α}
    (h : (l.length : ℤ) ≤ n) : sqlLimit n l = l := by
  unfold sqlLimit
  rw [if_pos (le_trans (by positivity) h)]
  exact List.take_of_length_le (by omega)

lemma get_due_vocabulary_fst (asOf : ℤ) (pool : List VocabItem)
    (arg : LimitArg) :
    (get_due_vocabulary asOf pool arg).1 =
      sqlLimit (effectiveLimit arg) (sortBy vocabOrder
        (pool.filter fun it => isDueAt asOf it.srs.next_review_date)) := rfl

lemma get_due_vocabulary_snd (asOf : ℤ) (pool : List VocabItem)
    (arg : LimitArg) :
    (get_due_vocabulary asOf pool arg).2 =
      ((get_due_vocabulary asOf pool arg).1.filter
        (fun it => isNewItem it.srs.next_review_date)).length := rfl

lemma get_due_exercises_disabled (asOf : ℤ) (pool : List ExerciseDueRow)
    (arg : LimitArg) :
    get_due_exercises false asOf pool arg = ([], 0, 0) := rfl

lemma get_due_exercises_enabled_fst (asOf : ℤ) (pool : List ExerciseDueRow)
    (arg : LimitArg) :
    (get_due_exercises true asOf pool arg).1 =
      (sqlLimit (effectiveLimit arg) (sortBy exerciseOrder
        (pool.filter fun r => isDueAt asOf r.next_review_date))).filter
        (fun r => r.hasExercise) := rfl

end Kapp

open Kapp

/-- Claim C1 (amended).  Lapse contract: for every quality rating in {0,1,2} and
every prior state, both variants set repetitions to 0 and interval to 1.
`calculate_sm2` leaves the ease factor unchanged (given an input ease factor
≥ 1.3; a sub-floor input is first raised to 1.3), but `apply_sm2` applies the
quality-based ease adjustment, clamped at 1.3, even on a lapse, so a lapse can
lower its ease factor. -/
theorem c1_lapse_contract (today now quality repetitions : ℤ)
    (ease_factor : ℚ) (interval : ℤ) (item : SrsFields)
    (h0 : 0 ≤ quality) (h3 : quality < 3) (hef : 13/10 ≤ ease_factor) :
    calculate_sm2 today quality repetitions ease_factor interval =
      some ⟨0, 1, ease_factor, today + 1⟩ ∧
    (apply_sm2 now item quality).repetitions = 0 ∧
    (apply_sm2 now item quality).review_interval = 1 ∧
    (apply_sm2 now item quality).ease_factor =
      max (13/10) (item.ease_factor + easeAdjustment quality) := by
  refine ⟨?_, ?_, ?_, ?_⟩
  · rw [calculate_sm2_lapse h0 h3, if_neg (not_lt.mpr hef)]
  all_goals rw [apply_sm2_lapse h3]

/-- Claim C1: witness instantiating the amended lapse contract at quality 1,
state (repetitions 5, interval 30, ease factor 2.5). -/
theorem c1_lapse_contract_witness :
    calculate_sm2 0 1 5 (5/2) 30 = some ⟨0, 1, 5/2, 1⟩ ∧
    (apply_sm2 0 ⟨5, 30, 5/2, none⟩ 1).repetitions = 0 ∧
    (apply_sm2 0 ⟨5, 30, 5/2, none⟩ 1).review_interval = 1 := by
  have h := c1_lapse_contract 0 0 1 5 (5/2) 30 ⟨5, 30, 5/2, none⟩
    (by norm_num) (by norm_num) (by norm_num)
  exact ⟨h.1, h.2.1, h.2.2.1⟩

/-- Claim C1 fails as stated: `apply_sm2` does penalize the ease factor on a
lapse.  Quality 0 at ease factor 2.5 lowers it to 1.7. -/
theorem c1_counterexample :
    (apply_sm2 0 ⟨5, 30, 5/2, none⟩ 0).ease_factor = 17/10 ∧
    ¬ (apply_sm2 0 ⟨5, 30, 5/2, none⟩ 0).ease_factor = 5/2 := by
  constructor <;> norm_num [apply_sm2, easeAdjustment]

/-- Claim C2 (amended).  Growth recurrence for a successful review whose
post-increment repetition count is ≥ 3: `calculate_sm2` returns
`round(interval × ease_factor)` under Python's round-half-to-even (for an
input ease factor ≥ 1.3, which the function would otherwise floor first), but
`apply_sm2` returns the truncation `int(interval × ease_factor)`, which can
differ from rounding. -/
theorem c2_growth_recurrence :
    (∀ (today quality repetitions : ℤ) (ease_factor : ℚ) (interval : ℤ),
      3 ≤ quality → quality ≤ 5 → 2 ≤ repetitions → 13/10 ≤ ease_factor →
      (calculate_sm2 today quality repetitions ease_factor interval).map
          Sm2Result.interval =
        some (pyRound ((interval : ℚ) * ease_factor))) ∧
    (∀ (now : ℤ) (item : SrsFields) (quality : ℤ),
      3 ≤ quality → 2 ≤ item.repetitions →
      (apply_sm2 now item quality).review_interval =
        pyTrunc ((item.review_interval : ℚ) * item.ease_factor)) := by
  constructor
  · intro today quality repetitions ease_factor interval h3 h5 hr hef
    rw [calculate_sm2_success_grow h3 h5 (by omega) (by omega), if_neg (not_lt.mpr hef)]
    rfl
  · intro now item quality h3 hr
    rw [apply_sm2_success_grow (by omega) (by omega) (by omega)]

/-- Claim C2: witness for the amended growth recurrence at quality 4,
repetitions 2, interval 6, ease factor 2.5 (both variants give 15). -/
theorem c2_growth_recurrence_witness :
    (calculate_sm2 0 4 2 (5/2) 6).map Sm2Result.interval = some 15 ∧
    (apply_sm2 0 ⟨2, 6, 5/2, none⟩ 4).review_interval = 15 := by
  have h1 := c2_growth_recurrence.1 0 4 2 (5/2) 6
    (by norm_num) (by norm_num) (by norm_num) (by norm_num)
  have h2 := c2_growth_recurrence.2 0 ⟨2, 6, 5/2, none⟩ 4
    (by norm_num) (by norm_num)
  rw [h1, h2]
  norm_num [pyRound, pyTrunc]

/-- Claim C2 fails as stated: `apply_sm2` truncates instead of rounding.  At
repetitions 2, interval 1, ease factor 1.7, quality 3 it returns interval 1
while `round(1 × 1.7) = 2`. -/
theorem c2_counterexample :
    (apply_sm2 0 ⟨2, 1, 17/10, none⟩ 3).review_interval = 1 ∧
    pyRound (((1 : ℤ) : ℚ) * (17/10)) = 2 := by
  constructor
  · norm_num [apply_sm2, pyTrunc]
  · norm_num [pyRound]

/-- Claim C3 (amended).  Output bounds: both variants always return an ease
factor ≥ 1.3, for every input state (including ease factors below 1.3).  The
returned interval is ≥ 1 provided the input interval is ≥ 1 (and, for
`apply_sm2`, the input ease factor is ≥ 1.3); with input interval 0 and a
successful review at repetitions ≥ 2 the returned interval is 0, so the
unconditional interval bound of the claim fails. -/
theorem c3_output_bounds :
    (∀ (today quality repetitions : ℤ) (ease_factor : ℚ) (interval : ℤ)
      (res : Sm2Result),
      calculate_sm2 today quality repetitions ease_factor interval = some res →
      13/10 ≤ res.ease_factor ∧ (1 ≤ interval → 1 ≤ res.interval)) ∧
    (∀ (now : ℤ) (item : SrsFields) (quality : ℤ),
      13/10 ≤ (apply_sm2 now item quality).ease_factor ∧
      (1 ≤ item.review_interval → 13/10 ≤ item.ease_factor →
        1 ≤ (apply_sm2 now item quality).review_interval)) := by
  constructor
  · intro today quality repetitions ease_factor interval res h
    by_cases hv : 0 ≤ quality ∧ quality ≤ 5
    · by_cases hq : quality < 3
      · rw [calculate_sm2_lapse hv.1 hq] at h
        obtain rfl := Option.some_inj.mp h
        exact ⟨floored_ease_ge, fun _ => le_refl 1⟩
      · rcases lt_trichotomy repetitions 1 with h0 | h1 | h2
        · by_cases hz : repetitions = 0
          · subst hz
            rw [calculate_sm2_success_rep0 (by omega) hv.2] at h
            obtain rfl := Option.some_inj.mp h
            exact ⟨le_max_left _ _, fun _ => le_refl 1⟩
          · rw [calculate_sm2_success_grow (by omega) hv.2 hz (by omega)] at h
            obtain rfl := Option.some_inj.mp h
            refine ⟨le_max_left _ _, fun hi => le_pyRound_of_le ?_⟩
            have hic : (1 : ℚ) ≤ (interval : ℚ) := by exact_mod_cast hi
            have hf := @floored_ease_ge ease_factor
            push_cast
            nlinarith
        · subst h1
          rw [calculate_sm2_success_rep1 (by omega) hv.2] at h
          obtain rfl := Option.some_inj.mp h
          exact ⟨le_max_left _ _, fun _ => by norm_num⟩
        · rw [calculate_sm2_success_grow (by omega) hv.2 (by omega) (by omega)]
            at h
          obtain rfl := Option.some_inj.mp h
          refine ⟨le_max_left _ _, fun hi => le_pyRound_of_le ?_⟩
          have hic : (1 : ℚ) ≤ (interval : ℚ) := by exact_mod_cast hi
          have hf := @floored_ease_ge ease_factor
          push_cast
          nlinarith
    · rw [calculate_sm2_invalid hv] at h
      cases h
  · intro now item quality
    constructor
    · by_cases h : quality < 3
      · rw [apply_sm2_lapse h]
        exact le_max_left _ _
      · rcases lt_trichotomy item.repetitions 1 with h0 | h1 | h2
        · by_cases hz : item.repetitions = 0
          · rw [apply_sm2_success_rep0 h hz]; exact le_max_left _ _
          · rw [apply_sm2_success_grow h hz (by omega)]; exact le_max_left _ _
        · rw [apply_sm2_success_rep1 h h1]; exact le_max_left _ _
        · rw [apply_sm2_success_grow h (by omega) (by omega)]
          exact le_max_left _ _
    · intro hi hef
      by_cases h : quality < 3
      · rw [apply_sm2_lapse h]
      · rcases lt_trichotomy item.repetitions 1 with h0 | h1 | h2
        · by_cases hz : item.repetitions = 0
          · rw [apply_sm2_success_rep0 h hz]
          · rw [apply_sm2_success_grow h hz (by omega)]
            refine le_pyTrunc_of_le ?_ ?_
            · have h1 : (1 : ℚ) ≤ (item.review_interval : ℚ) := by
                exact_mod_cast hi
              nlinarith
            · have h1 : (1 : ℚ) ≤ (item.review_interval : ℚ) := by
                exact_mod_cast hi
              push_cast
              nlinarith
        · rw [apply_sm2_success_rep1 h h1]; norm_num
        · rw [apply_sm2_success_grow h (by omega) (by omega)]
          refine le_pyTrunc_of_le ?_ ?_
          · have h1 : (1 : ℚ) ≤ (item.review_interval : ℚ) := by
              exact_mod_cast hi
            nlinarith
          · have h1 : (1 : ℚ) ≤ (item.review_interval : ℚ) := by
              exact_mod_cast hi
            push_cast
            nlinarith

/-- Claim C3: witness for the amended bounds at quality 3, repetitions 2,
ease factor 1.0 (below the floor), interval 4. -/
theorem c3_output_bounds_witness :
    (∀ res, calculate_sm2 0 3 2 1 4 = some res →
      13/10 ≤ res.ease_factor ∧ 1 ≤ res.interval) ∧
    13/10 ≤ (apply_sm2 0 ⟨2, 4, 3/2, none⟩ 3).ease_factor ∧
    1 ≤ (apply_sm2 0 ⟨2, 4, 3/2, none⟩ 3).review_interval := by
  refine ⟨fun res h => ?_, ?_, ?_⟩
  · have hc := (c3_output_bounds.1 0 3 2 1 4 res h)
    exact ⟨hc.1, hc.2 (by norm_num)⟩
  · exact (c3_output_bounds.2 0 ⟨2, 4, 3/2, none⟩ 3).1
  · exact (c3_output_bounds.2 0 ⟨2, 4, 3/2, none⟩ 3).2 (by norm_num) (by norm_num)

/-- Claim C3 fails as stated: with input interval 0 (allowed by the claim) and
repetitions 2, a quality-3 review through `calculate_sm2` returns interval
`round(0 × 2.5) = 0 < 1`. -/
theorem c3_counterexample :
    ¬ (∀ res, calculate_sm2 0 3 2 (5/2) 0 = some res → 1 ≤ res.interval) := by
  intro h
  have := h ⟨3, 0, 59/25, 0⟩ (by norm_num [calculate_sm2, easeAdjustment, pyRound])
  norm_num at this

/-- Claim C5 (confirmed).  First-success fixed intervals: from repetitions 0,
one success yields (repetitions 1, interval 1) and a consecutive second
success yields (repetitions 2, interval 6), independent of the ease factor,
for both variants. -/
theorem c5_first_success_intervals (today now q1 q2 : ℤ) (ease_factor : ℚ)
    (interval : ℤ) (item : SrsFields)
    (h31 : 3 ≤ q1) (h51 : q1 ≤ 5) (h32 : 3 ≤ q2) (h52 : q2 ≤ 5)
    (h0 : item.repetitions = 0) :
    (runCalc today ⟨0, interval, ease_factor⟩ [q1]).map
        (fun s => (s.repetitions, s.interval)) = some (1, 1) ∧
    (runCalc today ⟨0, interval, ease_factor⟩ [q1, q2]).map
        (fun s => (s.repetitions, s.interval)) = some (2, 6) ∧
    (runApply now item [q1]).repetitions = 1 ∧
    (runApply now item [q1]).review_interval = 1 ∧
    (runApply now item [q1, q2]).repetitions = 2 ∧
    (runApply now item [q1, q2]).review_interval = 6 := by
  have hs1 : calcStep today ⟨0, interval, ease_factor⟩ q1 =
      some ⟨1, 1, max (13/10)
        ((if ease_factor < 13/10 then 13/10 else ease_factor) +
          easeAdjustment q1)⟩ := by
    rw [calcStep, calculate_sm2_success_rep0 h31 h51]
    rfl
  have ha1 : apply_sm2 now item q1 =
      { item with repetitions := 1, review_interval := 1,
                  next_review_date := some (now + 1),
                  ease_factor := max (13/10)
                    (item.ease_factor + easeAdjustment q1) } :=
    apply_sm2_success_rep0 (by omega) h0
  have h1r : (apply_sm2 now item q1).repetitions = 1 := by rw [ha1]
  have ha2 := @apply_sm2_success_rep1 now (apply_sm2 now item q1) q2
    (show ¬ q2 < 3 by omega) h1r
  refine ⟨?_, ?_, ?_, ?_, ?_, ?_⟩
  · simp [runCalc, hs1]
  · rw [runCalc, hs1]
    simp only [runCalc]
    rw [calcStep, calculate_sm2_success_rep1 h32 h52]
    rfl
  · simp [runApply, ha1]
  · simp [runApply, ha1]
  · simp only [runApply]
    rw [ha2]
  · simp only [runApply]
    rw [ha2]

/-- Claim C10 (confirmed).  Frame condition of `update_card_after_review`: when
the update succeeds it changes only the four scheduling fields, which take
exactly the values `calculate_sm2` returns, and every other field of the card
is unchanged. -/
theorem c10_card_frame (today : ℤ) (card : Card) (quality_rating : ℤ)
    (card' : Card)
    (h : update_card_after_review today card quality_rating = some card') :
    card'.id = card.id ∧ card'.deck_id = card.deck_id ∧
    card'.front_korean = card.front_korean ∧
    card'.front_romanization = card.front_romanization ∧
    card'.back_english = card.back_english ∧
    card'.example_sentence = card.example_sentence ∧
    card'.level = card.level ∧ card'.created_at = card.created_at ∧
    ∃ r, calculate_sm2 today quality_rating card.repetitions card.ease_factor
        card.interval = some r ∧
      card'.repetitions = r.repetitions ∧ card'.interval = r.interval ∧
      card'.ease_factor = r.ease_factor ∧
      card'.next_review_date = some r.next_review_date := by
  unfold update_card_after_review at h
  cases hc : calculate_sm2 today quality_rating card.repetitions
      card.ease_factor card.interval with
  | none =>
    rw [hc] at h
    cases h
  | some r =>
    rw [hc] at h
    simp only [Option.map_some'] at h
    obtain rfl := Option.some_inj.mp h
    exact ⟨rfl, rfl, rfl, rfl, rfl, rfl, rfl, rfl, r, rfl, rfl, rfl, rfl, rfl⟩

/-- Claim C10: witness — a quality-4 review of `cardW` on day 0 yields `cardW2`,
whose non-scheduling fields agree with `cardW`. -/
theorem c10_card_frame_witness :
    update_card_after_review 0 cardW 4 = some cardW2 ∧
    cardW2.front_korean = cardW.front_korean ∧
    cardW2.deck_id = cardW.deck_id ∧ cardW2.repetitions = 1 := by
  have heq : update_card_after_review 0 cardW 4 = some cardW2 := by
    rw [update_card_after_review]
    have hc : calculate_sm2 0 4 cardW.repetitions cardW.ease_factor
        cardW.interval = some ⟨1, 1, 5/2, 1⟩ := by
      rw [show cardW.repetitions = 0 from rfl,
        show cardW.ease_factor = 5/2 from rfl,
        show cardW.interval = 0 from rfl,
        calculate_sm2_success_rep0 (by norm_num) (by norm_num)]
      norm_num [easeAdjustment, max_def]
    rw [hc]
    rfl
  have h := c10_card_frame 0 cardW 4 cardW2 heq
  exact ⟨heq, h.2.2.1, h.2.1, rfl⟩

/-- Claim C9 (confirmed).  First exercise review auto-creates the SRS record:
with the feature enabled, the exercise present and no SRS row yet, a valid
quality does not 404; it builds the row from the column defaults, bumps the
practice counters, stamps `last_reviewed_at`, applies `apply_sm2` to the fresh
state, and returns 200; for quality ≥ 3 the resulting repetition count is 1. -/
theorem c9_exercise_auto_create (now q : ℤ) (h0 : 0 ≤ q) (h5 : q ≤ 5) :
    record_exercise_review now true true none (.jint q) =
      (200, some { defaultExerciseSrs with
        times_practiced := 1,
        times_correct := if 3 ≤ q then 1 else 0,
        last_reviewed_at := some now,
        srs := apply_sm2 now defaultExerciseSrs.srs q }) ∧
    (3 ≤ q → (apply_sm2 now defaultExerciseSrs.srs q).repetitions = 1) := by
  constructor
  · rw [record_exercise_review]
    rw [if_neg (by simp), if_neg (by simp)]
    simp only [pyInt]
    rw [if_neg (by omega)]
    simp [defaultExerciseSrs]
  · intro h3
    rw [apply_sm2_success_rep0 (by omega) rfl]

/-- Claim C9: witness at quality 4 — the fresh row has been reviewed once. -/
theorem c9_exercise_auto_create_witness :
    (record_exercise_review 0 true true none (.jint 4)).1 = 200 ∧
    (record_exercise_review 0 true true none (.jint 4)).2.map
      (fun s => (s.times_practiced, s.times_correct, s.srs.repetitions)) =
      some (1, 1, 1) := by
  have h := c9_exercise_auto_create 0 4 (by norm_num) (by norm_num)
  have hr := h.2 (by norm_num)
  rw [h.1]
  exact ⟨rfl, by simp [hr]⟩

/-- Claim C4 (amended).  Quality validation differs per route: the flashcard
`POST /reviews` rejects any `quality_rating` that is not a JSON integer (or a
boolean, which Python's `isinstance(_, int)` accepts) or is out of `[0,5]`
with HTTP 400 and no mutation; the vocabulary and exercise review routes
instead coerce `quality` with Python `int()`, so a JSON float is silently
truncated toward zero and, if the truncation lands in `[0,5]`, the review is
applied with status 200; those routes return 400 (no mutation) only for a
coerced value outside `[0,5]` or a string `int()` cannot parse, and 500 for a
`null` quality (a `TypeError` misses their `except ValueError` handler). -/
theorem c4_quality_validation :
    (∀ (today : ℤ) (qv : JVal) (card : Option Card),
      pyIsInstanceInt qv = false → submit_review today qv card = (400, card)) ∧
    (∀ (today n : ℤ) (card : Option Card), n < 0 ∨ 5 < n →
      submit_review today (.jint n) card = (400, card)) ∧
    (∀ (now n : ℤ) (it : VocabItem) (ex : Option ExerciseSrs), n < 0 ∨ 5 < n →
      record_review now (.jint n) (some it) = (400, some it) ∧
      record_exercise_review now true true ex (.jint n) = (400, ex)) ∧
    (∀ (now : ℤ) (x : ℚ) (it : VocabItem),
      0 ≤ pyTrunc x → pyTrunc x ≤ 5 →
      record_review now (.jfloat x) (some it) =
        (200, some { it with
          times_practiced := it.times_practiced + 1,
          times_correct := it.times_correct +
            (if 3 ≤ pyTrunc x then 1 else 0),
          srs := apply_sm2 now it.srs (pyTrunc x) })) ∧
    (∀ (now : ℤ) (s : String) (it : VocabItem), s.toInt? = none →
      record_review now (.jstr s) (some it) = (400, some it)) ∧
    (∀ (now : ℤ) (it : VocabItem),
      record_review now .jnull (some it) = (500, some it)) := by
  refine ⟨?_, ?_, ?_, ?_, ?_, ?_⟩
  · intro today qv card h
    unfold submit_review
    rw [if_pos (by simp [h])]
  · intro today n card h
    unfold submit_review
    rw [if_pos (by simp only [pyIsInstanceInt, jvalAsInt, true_and]; omega)]
  · intro now n it ex h
    constructor
    · rw [record_review]
      simp only [pyInt]
      rw [if_pos (by omega)]
    · rw [record_exercise_review]
      simp only [pyInt]
      rw [if_neg (by simp), if_neg (by simp), if_pos (by omega)]
  · intro now x it h0 h5
    rw [record_review]
    simp only [pyInt]
    rw [if_neg (by omega)]
  · intro now s it h
    rw [record_review]
    simp only [pyInt, h]
  · intro now it
    rw [record_review]
    simp only [pyInt]

/-- Claim C4: witness — quality 6 is rejected with 400, state untouched, on all
three routes. -/
theorem c4_quality_validation_witness :
    submit_review 0 (.jint 6) (some cardW) = (400, some cardW) ∧
    record_review 0 (.jint 6) (some v0) = (400, some v0) ∧
    record_exercise_review 0 true true none (.jint 6) = (400, none) := by
  have h2 := c4_quality_validation.2.1 0 6 (some cardW) (by norm_num)
  have h3 := c4_quality_validation.2.2.1 0 6 v0 none (by norm_num)
  exact ⟨h2, h3.1, h3.2⟩

/-- Claim C4 fails as stated: a non-integer quality `3.7` at the vocabulary
route is silently truncated to 3 and applied — the route answers 200, not
400, and the item's scheduling state is mutated (repetitions 0 → 1). -/
theorem c4_counterexample :
    (record_review 0 (.jfloat (37/10)) (some v0)).1 = 200 ∧
    (record_review 0 (.jfloat (37/10)) (some v0)).2.map
      (fun it => it.srs.repetitions) = some 1 ∧
    v0.srs.repetitions = 0 := by
  have ht : pyTrunc (37/10) = 3 := by norm_num [pyTrunc]
  refine ⟨?_, ?_, rfl⟩
  · rw [record_review]
    simp only [pyInt, ht]
    rw [if_neg (by omega)]
  · rw [record_review]
    simp only [pyInt, ht]
    rw [if_neg (by omega)]
    simp only [Option.map_some']
    rw [apply_sm2_success_rep0 (by omega) rfl]

/-- Claim C5: witness at quality 4 twice from the default state
(repetitions 0, interval 0, ease factor 2.5). -/
theorem c5_first_success_intervals_witness :
    (runCalc 0 ⟨0, 0, 5/2⟩ [4, 4]).map
        (fun s => (s.repetitions, s.interval)) = some (2, 6) ∧
    (runApply 0 ⟨0, 1, 5/2, none⟩ [4, 4]).review_interval = 6 := by
  have h := c5_first_success_intervals 0 0 4 4 (5/2) 0 ⟨0, 1, 5/2, none⟩
    (by norm_num) (by norm_num) (by norm_num) (by norm_num) rfl
  exact ⟨h.2.1, h.2.2.2.2.2⟩

/-- Claim C7 (amended).  Due/new classification: every item the selectors return
is due (`next_review_date` null or ≤ `as_of`); the `new_items` count is
exactly the number of returned items with a null `next_review_date`; every
new item is due; and a due pool item is guaranteed to be included only when
the number of due items does not exceed the effective limit (or the limit is
negative, which SQLite treats as unbounded) — the `LIMIT` clause can exclude
due items, so the inclusion is an "only if" in general.  For the exercise
selector (feature flag on), returned rows are additionally required to still
reference an existing exercise. -/
theorem c7_due_new_classification :
    (∀ (asOf : ℤ) (pool : List VocabItem) (arg : LimitArg) (x : VocabItem),
      x ∈ (get_due_vocabulary asOf pool arg).1 →
        isDueAt asOf x.srs.next_review_date = true) ∧
    (∀ (asOf : ℤ) (pool : List VocabItem) (arg : LimitArg),
      (get_due_vocabulary asOf pool arg).2 =
        ((get_due_vocabulary asOf pool arg).1.filter
          (fun it => isNewItem it.srs.next_review_date)).length) ∧
    (∀ (asOf : ℤ) (next : Option ℤ),
      isNewItem next = true → isDueAt asOf next = true) ∧
    (∀ (asOf : ℤ) (pool : List VocabItem) (arg : LimitArg) (x : VocabItem),
      x ∈ pool → isDueAt asOf x.srs.next_review_date = true →
      (((pool.filter fun it =>
          isDueAt asOf it.srs.next_review_date).length : ℤ) ≤
        effectiveLimit arg ∨ effectiveLimit arg < 0) →
      x ∈ (get_due_vocabulary asOf pool arg).1) ∧
    (∀ (enabled : Bool) (asOf : ℤ) (pool : List ExerciseDueRow)
      (arg : LimitArg) (x : ExerciseDueRow),
      x ∈ (get_due_exercises enabled asOf pool arg).1 →
        isDueAt asOf x.next_review_date = true ∧ x.hasExercise = true) := by
  refine ⟨?_, ?_, ?_, ?_, ?_⟩
  · intro asOf pool arg x hx
    rw [get_due_vocabulary_fst] at hx
    exact (List.mem_filter.mp (mem_sortBy.mp (mem_sqlLimit hx))).2
  · intro asOf pool arg
    exact get_due_vocabulary_snd asOf pool arg
  · intro asOf next h
    cases next with
    | none => rfl
    | some d => cases h
  · intro asOf pool arg x hxp hdue hlim
    rw [get_due_vocabulary_fst]
    rcases hlim with hle | hneg
    · rw [sqlLimit_of_length_le (by rw [length_sortBy]; exact hle)]
      exact mem_sortBy.mpr (List.mem_filter.mpr ⟨hxp, hdue⟩)
    · rw [sqlLimit_neg _ hneg]
      exact mem_sortBy.mpr (List.mem_filter.mpr ⟨hxp, hdue⟩)
  · intro enabled asOf pool arg x hx
    cases enabled
    · rw [get_due_exercises_disabled] at hx
      cases hx
    · rw [get_due_exercises_enabled_fst] at hx
      have h := List.mem_filter.mp hx
      exact ⟨(List.mem_filter.mp (mem_sortBy.mp (mem_sqlLimit h.1))).2, h.2⟩

/-- Claim C7: witness — at instant 0 the never-reviewed `vA` is returned from a
pool that also holds a future-dated item, and the future-dated item is not
due. -/
theorem c7_due_new_classification_witness :
    vA ∈ (get_due_vocabulary 0 poolC7W .absent).1 ∧
    isDueAt 0 vFuture.srs.next_review_date = false := by
  constructor
  · apply c7_due_new_classification.2.2.2.1 0 poolC7W .absent vA
    · simp [poolC7W]
    · rfl
    · left
      have h1 : (poolC7W.filter fun it =>
          isDueAt 0 it.srs.next_review_date).length = 1 := rfl
      rw [h1]
      norm_num [effectiveLimit, flaskLimitArg, min_def]
  · rfl

/-- Claim C7 fails as stated: the `LIMIT` clause can exclude a due item.  With
two never-reviewed items and `limit=1`, item `vB` is due and in the pool but
is not included in the response. -/
theorem c7_counterexample :
    vB ∈ poolC7 ∧ isDueAt 0 vB.srs.next_review_date = true ∧
    vB ∉ (get_due_vocabulary 0 poolC7 (.value 1)).1 := by
  refine ⟨by simp [poolC7], rfl, ?_⟩
  have hpage : (get_due_vocabulary 0 poolC7 (.value 1)).1 = [vA] := by
    rw [get_due_vocabulary_fst]
    have he : effectiveLimit (.value 1) = 1 := by
      norm_num [effectiveLimit, flaskLimitArg, min_def]
    rw [he]
    rfl
  rw [hpage]
  simp [vA, vB]

/-- Claim C8 (amended).  Limit handling: the effective limit is always capped at
50; a limit that is absent or fails integer parsing falls back to the default
20; and whenever the effective limit is non-negative the selectors return at
most that many items.  A non-positive *integer* limit, however, is not
normalized: it is passed straight to the SQL `LIMIT`, and under SQLite a
negative limit means "no bound", so such requests are neither defaulted to 20
nor capped. -/
theorem c8_limit_handling :
    (∀ arg, effectiveLimit arg ≤ 50) ∧
    effectiveLimit .malformed = 20 ∧ effectiveLimit .absent = 20 ∧
    (∀ (asOf : ℤ) (pool : List VocabItem) (arg : LimitArg),
      0 ≤ effectiveLimit arg →
      ((get_due_vocabulary asOf pool arg).1.length : ℤ) ≤
        effectiveLimit arg) ∧
    (∀ (enabled : Bool) (asOf : ℤ) (pool : List ExerciseDueRow)
      (arg : LimitArg), 0 ≤ effectiveLimit arg →
      ((get_due_exercises enabled asOf pool arg).1.length : ℤ) ≤
        effectiveLimit arg) := by
  refine ⟨fun arg => min_le_right _ _, by norm_num [effectiveLimit,
    flaskLimitArg, min_def], by norm_num [effectiveLimit, flaskLimitArg,
    min_def], ?_, ?_⟩
  · intro asOf pool arg h
    rw [get_due_vocabulary_fst]
    exact length_sqlLimit_le _ h
  · intro enabled asOf pool arg h
    cases enabled
    · rw [get_due_exercises_disabled]
      simpa using h
    · rw [get_due_exercises_enabled_fst]
      have hb := length_sqlLimit_le (sortBy exerciseOrder
        (pool.filter fun r => isDueAt asOf r.next_review_date)) h
      have ha := List.length_filter_le (fun r => r.hasExercise)
        (sqlLimit (effectiveLimit arg) (sortBy exerciseOrder
          (pool.filter fun r => isDueAt asOf r.next_review_date)))
      exact le_trans (by exact_mod_cast ha) hb

/-- Claim C8: witness — a requested limit of 5 bounds the vocabulary response
by 5. -/
theorem c8_limit_handling_witness :
    ((get_due_vocabulary 0 [vA] (.value 5)).1.length : ℤ) ≤
      effectiveLimit (.value 5) ∧ effectiveLimit (.value 5) = 5 := by
  refine ⟨c8_limit_handling.2.2.2.1 0 [vA] (.value 5) ?_, ?_⟩ <;>
    norm_num [effectiveLimit, flaskLimitArg, min_def]

/-- Claim C8 fails as stated: the query-string limit `-1` parses as the integer
−1, so Flask does not substitute the default 20; `min(-1, 50) = -1` reaches
the SQL `LIMIT`, and under SQLite a negative limit is unbounded: a pool of 21
due items yields 21 returned items — more than both the claimed fallback
default and `min(limit, 50)`. -/
theorem c8_counterexample :
    effectiveLimit (.value (-1)) = -1 ∧
    (get_due_vocabulary 0 pool21 (.value (-1))).1.length = 21 ∧
    ¬ (((get_due_vocabulary 0 pool21 (.value (-1))).1.length : ℤ) ≤
        min (-1 : ℤ) 50) ∧
    (get_due_vocabulary 0 pool21 .malformed).1.length = 20 := by
  have hfull : pool21.filter
      (fun it => isDueAt 0 it.srs.next_review_date) = pool21 := by
    rw [List.filter_eq_self]
    intro a ha
    rw [pool21, List.mem_map] at ha
    obtain ⟨i, _, rfl⟩ := ha
    rfl
  have he : effectiveLimit (.value (-1)) = -1 := by
    norm_num [effectiveLimit, flaskLimitArg, min_def]
  have hlen : (get_due_vocabulary 0 pool21 (.value (-1))).1.length = 21 := by
    rw [get_due_vocabulary_fst, he, sqlLimit_neg _ (by norm_num), length_sortBy,
      hfull]
    rfl
  refine ⟨he, hlen, by rw [hlen]; norm_num, ?_⟩
  have he2 : effectiveLimit .malformed = 20 := by
    norm_num [effectiveLimit, flaskLimitArg, min_def]
  rw [get_due_vocabulary_fst, he2, sqlLimit, if_pos (by norm_num)]
  rw [List.length_take, length_sortBy, hfull]
  rfl

lemma calcStep_growth {today q : ℤ} {s : CalcState} (h3 : 3 ≤ q) (h5 : q ≤ 5)
    (hr : 2 ≤ s.repetitions) (hi : 6 ≤ s.interval)
    (hef : 13/10 ≤ s.ease_factor) :
    ∃ s', calcStep today s q = some s' ∧ 2 ≤ s'.repetitions ∧
      6 ≤ s'.interval ∧ 13/10 ≤ s'.ease_factor ∧ s.interval < s'.interval := by
  have key : s.interval + 1 ≤ pyRound ((s.interval : ℚ) * s.ease_factor) := by
    refine le_pyRound_of_le ?_
    have hiq : (6 : ℚ) ≤ (s.interval : ℚ) := by exact_mod_cast hi
    push_cast
    nlinarith
  refine ⟨⟨s.repetitions + 1, pyRound ((s.interval : ℚ) * s.ease_factor),
    max (13/10) (s.ease_factor + easeAdjustment q)⟩, ?_,
    by show 2 ≤ s.repetitions + 1; omega,
    by show 6 ≤ pyRound ((s.interval : ℚ) * s.ease_factor); omega,
    le_max_left _ _,
    by show s.interval < pyRound ((s.interval : ℚ) * s.ease_factor); omega⟩
  rw [calcStep, calculate_sm2_success_grow h3 h5 (by omega) (by omega),
    if_neg (not_lt.mpr hef)]
  rfl

lemma runCalc_growth_inv {today : ℤ} :
    ∀ (qs : List ℤ) (s : CalcState), (∀ x ∈ qs, 3 ≤ x ∧ x ≤ 5) →
    2 ≤ s.repetitions → 6 ≤ s.interval → 13/10 ≤ s.ease_factor →
    ∃ s', runCalc today s qs = some s' ∧ 2 ≤ s'.repetitions ∧
      6 ≤ s'.interval ∧ 13/10 ≤ s'.ease_factor
  | [], s, _, hr, hi, hef => ⟨s, rfl, hr, hi, hef⟩
  | q :: qs, s, hqs, hr, hi, hef => by
    obtain ⟨s1, hs1, h1r, h1i, h1e, _⟩ :=
      calcStep_growth (hqs q (by simp)).1 (hqs q (by simp)).2 hr hi hef
    obtain ⟨s', hs', hrest⟩ := runCalc_growth_inv qs s1
      (fun x hx => hqs x (by simp [hx])) h1r h1i h1e
    exact ⟨s', by rw [runCalc, hs1]; exact hs', hrest⟩

lemma applyStep_growth {now q : ℤ} {s : SrsFields} (h3 : 3 ≤ q)
    (hr : 2 ≤ s.repetitions) (hi : 6 ≤ s.review_interval)
    (hef : 13/10 ≤ s.ease_factor) :
    2 ≤ (apply_sm2 now s q).repetitions ∧
    6 ≤ (apply_sm2 now s q).review_interval ∧
    13/10 ≤ (apply_sm2 now s q).ease_factor ∧
    s.review_interval < (apply_sm2 now s q).review_interval := by
  have hiq : (6 : ℚ) ≤ (s.review_interval : ℚ) := by exact_mod_cast hi
  have key : s.review_interval + 1 ≤
      pyTrunc ((s.review_interval : ℚ) * s.ease_factor) := by
    refine le_pyTrunc_of_le (by nlinarith) ?_
    push_cast
    nlinarith
  rw [apply_sm2_success_grow (by omega) (by omega) (by omega)]
  refine ⟨by dsimp only; omega, by dsimp only; omega, le_max_left _ _,
    by dsimp only; omega⟩

lemma runApply_growth_inv {now : ℤ} :
    ∀ (qs : List ℤ) (s : SrsFields), (∀ x ∈ qs, 3 ≤ x) →
    2 ≤ s.repetitions → 6 ≤ s.review_interval → 13/10 ≤ s.ease_factor →
    2 ≤ (runApply now s qs).repetitions ∧
    6 ≤ (runApply now s qs).review_interval ∧
    13/10 ≤ (runApply now s qs).ease_factor
  | [], s, _, hr, hi, hef => ⟨hr, hi, hef⟩
  | q :: qs, s, hqs, hr, hi, hef => by
    obtain ⟨h1r, h1i, h1e, _⟩ := @applyStep_growth now q s (hqs q (by simp))
      hr hi hef
    rw [runApply]
    exact runApply_growth_inv qs _ (fun x hx => hqs x (by simp [hx])) h1r h1i h1e

/-- Claim C6 (confirmed).  Strict interval growth: along any streak of
consecutive successful reviews (qualities in [3,5]) started at repetitions 0,
from the third success onward every further successful update produces a
strictly larger interval than the previous one — for `calculate_sm2` (where
the update is `round(interval × ease_factor)` with `ease_factor ≥ 1.3`) and
for `apply_sm2` (truncated product) alike. -/
theorem c6_strict_interval_growth (today now i0 : ℤ) (ef0 : ℚ)
    (item : SrsFields) (q1 q2 q : ℤ) (qs : List ℤ)
    (hq1 : 3 ≤ q1) (hq1u : q1 ≤ 5) (hq2 : 3 ≤ q2) (hq2u : q2 ≤ 5)
    (hqs : ∀ x ∈ qs, 3 ≤ x ∧ x ≤ 5) (hq : 3 ≤ q) (hqu : q ≤ 5)
    (h0 : item.repetitions = 0) :
    (∀ s, runCalc today ⟨0, i0, ef0⟩ (q1 :: q2 :: qs) = some s →
      ∃ s', calcStep today s q = some s' ∧ s.interval < s'.interval) ∧
    (runApply now item (q1 :: q2 :: qs)).review_interval <
      (apply_sm2 now (runApply now item (q1 :: q2 :: qs)) q).review_interval
    := by
  constructor
  · intro s hs
    have hstep1 : calcStep today ⟨0, i0, ef0⟩ q1 =
        some ⟨1, 1, max (13/10)
          ((if ef0 < 13/10 then 13/10 else ef0) + easeAdjustment q1)⟩ := by
      rw [calcStep, calculate_sm2_success_rep0 hq1 hq1u]
      rfl
    have hstep2 := @calculate_sm2_success_rep1 today q2
      (max (13/10) ((if ef0 < 13/10 then 13/10 else ef0) + easeAdjustment q1))
      1 hq2 hq2u
    rw [runCalc, hstep1] at hs
    simp only [runCalc] at hs
    rw [calcStep, hstep2] at hs
    simp only [Option.map_some'] at hs
    obtain ⟨s', hs', hr', hi', he'⟩ := runCalc_growth_inv qs
      ⟨2, 6, max (13/10)
        ((if (max (13/10) ((if ef0 < 13/10 then 13/10 else ef0) +
            easeAdjustment q1)) < 13/10 then 13/10
          else (max (13/10) ((if ef0 < 13/10 then 13/10 else ef0) +
            easeAdjustment q1))) + easeAdjustment q2)⟩ hqs
      (le_refl 2) (le_refl 6) (le_max_left _ _)
    rw [hs'] at hs
    obtain rfl := Option.some_inj.mp hs
    obtain ⟨s2, hs2, _, _, _, hgrow⟩ := calcStep_growth hq hqu hr' hi' he'
    exact ⟨s2, hs2, hgrow⟩
  · have ha1 : apply_sm2 now item q1 =
        { item with repetitions := 1, review_interval := 1,
                    next_review_date := some (now + 1),
                    ease_factor := max (13/10)
                      (item.ease_factor + easeAdjustment q1) } :=
      apply_sm2_success_rep0 (by omega) h0
    have ha2 := @apply_sm2_success_rep1 now (apply_sm2 now item q1) q2
      (by omega) (by rw [ha1])
    have hinv := @runApply_growth_inv now qs
      (apply_sm2 now (apply_sm2 now item q1) q2)
      (fun x hx => (hqs x hx).1)
      (by rw [ha2]) (by rw [ha2]) (by rw [ha2]; exact le_max_left _ _)
    have := @applyStep_growth now q
      (runApply now (apply_sm2 now (apply_sm2 now item q1) q2) qs)
      hq hinv.1 hinv.2.1 hinv.2.2
    rw [runApply, runApply]
    exact this.2.2.2

/-- Claim C6: witness — the streak 4, 4 then one more 4: `calculate_sm2` moves
the interval from 6 to 15, and `apply_sm2` likewise. -/
theorem c6_strict_interval_growth_witness :
    (∀ s, runCalc 0 ⟨0, 0, 5/2⟩ [4, 4] = some s →
      ∃ s', calcStep 0 s 4 = some s' ∧ s.interval < s'.interval) ∧
    (runApply 0 ⟨0, 1, 5/2, none⟩ [4, 4]).review_interval <
      (apply_sm2 0 (runApply 0 ⟨0, 1, 5/2, none⟩ [4, 4]) 4).review_interval :=
  c6_strict_interval_growth 0 0 0 (5/2) ⟨0, 1, 5/2, none⟩ 4 4 4 []
    (by norm_num) (by norm_num) (by norm_num) (by norm_num)
    (by intro x hx; cases hx) (by norm_num) (by norm_num) rfl
